import Mathlib

/-!
Verification of the Perception-to-Action Decision Engine of the
MapleStory Worlds automation bot (`auto.py`), against its natural-language
specification.

The embedding models the pure decision logic of `OptimizedMapleBot`:
  * `Detection` mirrors the `Detection` dataclass;
  * `Config` mirrors the configuration snapshot consumed through
    `ConfigManager.get` (optional fields model absent YAML keys; the
    call-site defaults of the Python code are applied with `Option.getD`
    exactly where the code applies them);
  * `BotState` mirrors the mutable run state (`self.stats` plus the
    search-machine variables);
  * `Effect` mirrors one input-injection call (`pyautogui.moveTo`,
    `click`, `press`, `keyDown`, `keyUp`); a failure oracle
    `fails : Effect → Bool` models the possibility that any injection
    call raises, and an `Except` result models the `try/except` in
    `perform_action` (error payload = state and attempted effects at the
    moment of the exception).  `time.sleep` performs no injection and is
    not modelled as an effect.
  * wall-clock time is a rational `now`, constant within one cycle.
-/

namespace MapleBot

/-- Mirror of the `Detection` dataclass of `auto.py`. -/
structure Detection where
  bbox : List Int
  confidence : ℚ
  class_id : Nat
  class_name : String
  center : Int × Int
  distance_from_center : ℚ
  deriving DecidableEq, Repr

/-- One entry of the `detection_behavior` config section
(`action`, `attack_delay_ms`, `max_distance`); every key optional. -/
structure ClassBehavior where
  action : Option String
  attack_delay_ms : Option ℚ
  max_distance : Option ℚ
  deriving DecidableEq, Repr

/-- The configuration snapshot read through `ConfigManager.get`.
`Option` fields model keys that may be absent from `config.yaml`;
the defaults hard-coded at the Python call sites are applied with
`Option.getD` in the definitions below, at the same places. -/
structure Config where
  monitor_left : Int
  monitor_top : Int
  priority_targets : List String
  max_detection_distance : Option ℚ
  max_actions_per_cycle : Option Nat
  detection_behavior : List (String × ClassBehavior)
  attack_method : Option String
  attack_key : Option String
  pickup_key : Option String
  interact_key : Option String
  movement_keys : List (String × String)
  mob_hunting_enable : Option Bool
  search_delay_seconds : Option ℚ
  max_search_time_seconds : Option ℚ
  search_pattern : Option String
  move_duration_ms : Option ℚ
  return_to_center : Option Bool
  deriving DecidableEq, Repr

/-- Mirror of the mutable run state: the `self.stats` dictionary together
with the search-machine attributes of `OptimizedMapleBot`. -/
structure BotState where
  detections : Nat
  actions_performed : Nat
  items_collected : Nat
  mobs_attacked : Nat
  npcs_interacted : Nat
  searches_performed : Nat
  search_time_total : ℚ
  last_mob_detection_time : ℚ
  is_searching : Bool
  search_start_time : ℚ
  search_direction : Int
  search_moves : Nat
  deriving DecidableEq, Repr

/-- One input-injection call handed to the `pyautogui` collaborator. -/
inductive Effect where
  | moveTo (x y : Int) (duration : ℚ)
  | click
  | press (key : String)
  | keyDown (key : String)
  | keyUp (key : String)
  deriving DecidableEq, Repr

/-- `self.config_manager.get(f'detection_behavior.{class_name}', {})`. -/
def class_behavior (cfg : Config) (class_name : String) : Option ClassBehavior :=
  cfg.detection_behavior.lookup class_name

/-- `class_behavior.get('action', 'log_only')`. -/
def action_type (cfg : Config) (class_name : String) : String :=
  ((class_behavior cfg class_name).bind (·.action)).getD "log_only"

/-- `max_dist_class if max_dist_class is not None else
self.config_manager.get('automation.max_detection_distance', 150)`. -/
def max_distance (cfg : Config) (class_name : String) : ℚ :=
  ((class_behavior cfg class_name).bind (·.max_distance)).getD
    (cfg.max_detection_distance.getD 150)

/-- `self.config_manager.get(f'controls.movement_keys.{name}', name)`. -/
def movement_key (cfg : Config) (name : String) : String :=
  (cfg.movement_keys.lookup name).getD name

/-- The dictionary comprehension
`{name: i for i, name in enumerate(priority_targets)}` followed by
`.get(class_name, 999)`: the last index at which the class name occurs in
the priority list, or the sentinel 999 when it is absent. -/
def priority_rank (targets : List String) (name : String) : Nat :=
  (((targets.enum.map (fun p => (p.2, p.1))).reverse).lookup name).getD 999

/-- The tuple returned by `sort_key` inside `_prioritize_detections`. -/
def sort_key (cfg : Config) (d : Detection) : Nat × ℚ :=
  (priority_rank cfg.priority_targets d.class_name, d.distance_from_center)

/-- Lexicographic non-strict comparison on sort keys: the total preorder
with respect to which Python's stable `sorted` orders the records. -/
def keyLE (a b : Nat × ℚ) : Bool :=
  decide (a.1 < b.1) || (decide (a.1 = b.1) && decide (a.2 ≤ b.2))

/-- Comparison of two detections by their sort keys. -/
def detLE (cfg : Config) (d1 d2 : Detection) : Bool :=
  keyLE (sort_key cfg d1) (sort_key cfg d2)

/-- Stable insertion of `a` into `l`: `a` is placed before the first
element `b` with `le a b` (so before every element whose key equals
`a`'s). -/
def insort (le : α → α → Bool) (a : α) : List α → List α
  | [] => [a]
  | b :: l => if le a b then a :: b :: l else b :: insort le a l

/-- A stable sort with respect to the total preorder `le`: inserting each
element in turn into the sorted tail keeps equal elements in input
order. -/
def stable_sort (le : α → α → Bool) : List α → List α
  | [] => []
  | x :: xs => insort le x (stable_sort le xs)

/-- `_prioritize_detections`: Python's `sorted(detections, key=sort_key)`
is a stable sort by the key, embedded as a stable sort under the total
preorder `detLE`. -/
def prioritize_detections (cfg : Config) (detections : List Detection) :
    List Detection :=
  stable_sort (detLE cfg) detections

/-- The `for _ in range(num_return_moves)` loop body of
`_return_to_center_simplified`: each iteration attempts
`pyautogui.keyDown(move_key)` then `pyautogui.keyUp(move_key)`.
Returns whether every injection succeeded, together with the effects
attempted in order (a failing attempt is recorded and aborts the loop,
modelling the exception). -/
def rtc_loop (fails : Effect → Bool) (key : String) : Nat → Bool × List Effect
  | 0 => (true, [])
  | n + 1 =>
    if fails (Effect.keyDown key) then (false, [Effect.keyDown key])
    else if fails (Effect.keyUp key) then
      (false, [Effect.keyDown key, Effect.keyUp key])
    else
      let r := rtc_loop fails key n
      (r.1, Effect.keyDown key :: Effect.keyUp key :: r.2)

/-- `_return_to_center_simplified`: reverse the last search direction for
`search_moves // 2 + 1` key-hold steps. -/
def return_to_center_simplified (cfg : Config) (fails : Effect → Bool)
    (st : BotState) : Bool × List Effect :=
  let key_name := if st.search_direction > 0 then "left" else "right"
  let move_key := movement_key cfg key_name
  let num_return_moves := st.search_moves / 2 + 1
  rtc_loop fails move_key num_return_moves

/-- `_end_mob_search`: close the search session, fold its duration into
the statistics, leave the `Searching` state, and (when configured) issue
the corrective return movement.  An `.error` result models an exception
raised by an injection during the return movement. -/
def end_mob_search (cfg : Config) (fails : Effect → Bool) (now : ℚ)
    (st : BotState) : Except (BotState × List Effect) (BotState × List Effect) :=
  if st.is_searching = false then .ok (st, [])
  else
    let duration := now - st.search_start_time
    let st1 : BotState :=
      { st with
        searches_performed := st.searches_performed + 1
        search_time_total := st.search_time_total + duration
        is_searching := false }
    if cfg.return_to_center.getD true then
      let r := return_to_center_simplified cfg fails st1
      if r.1 then .ok (st1, r.2) else .error (st1, r.2)
    else .ok (st1, [])

/-- The attack injection chosen by `controls.attack_method`: a key press
when the method is `key`, otherwise a click. -/
def attack_effect (cfg : Config) : Effect :=
  if (cfg.attack_method.getD "click") = "key" then
    Effect.press (cfg.attack_key.getD "ctrl")
  else Effect.click

/-- The body of the `try:` block of `perform_action` up to (and not
including) the `if action_performed:` epilogue: attempt the injection
sequence of the resolved action kind and perform the per-class statistic
update.  `.error` carries the effects attempted before the exception
(the state is not yet mutated at any failure point of this part).
Unknown action kinds (including `ignore`) and `log_only` perform nothing. -/
def dispatch_action (cfg : Config) (fails : Effect → Bool) (st : BotState)
    (d : Detection) : Except (List Effect) (Bool × BotState × List Effect) :=
  let abs_x := cfg.monitor_left + d.center.1
  let abs_y := cfg.monitor_top + d.center.2
  let a := action_type cfg d.class_name
  if a = "attack" then
    let e1 := Effect.moveTo abs_x abs_y (1/20)
    if fails e1 then .error [e1]
    else
      let e2 := attack_effect cfg
      if fails e2 then .error [e1, e2]
      else
        .ok (true,
          (if d.class_name = "mob" then
            { st with mobs_attacked := st.mobs_attacked + 1 }
          else st), [e1, e2])
  else if a = "pickup" then
    let e1 := Effect.moveTo abs_x abs_y (1/10)
    if fails e1 then .error [e1]
    else
      let e2 := Effect.press (cfg.pickup_key.getD "z")
      if fails e2 then .error [e1, e2]
      else
        .ok (true,
          (if d.class_name = "item" then
            { st with items_collected := st.items_collected + 1 }
          else st), [e1, e2])
  else if a = "interact" then
    let e1 := Effect.moveTo abs_x abs_y (1/10)
    if fails e1 then .error [e1]
    else
      let e2 := Effect.press (cfg.interact_key.getD "space")
      if fails e2 then .error [e1, e2]
      else
        .ok (true,
          (if d.class_name = "npc" then
            { st with npcs_interacted := st.npcs_interacted + 1 }
          else st), [e1, e2])
  else
    .ok (false, st, [])

/-- `perform_action`: distance gate first (outside the `try:`), then the
dispatch, then — only when an action was performed — the statistics
epilogue and, when the bot was searching, `_end_mob_search`.  Any
exception inside the `try:` is caught and yields a `false` result with
the state and effects accumulated so far. -/
def perform_action (cfg : Config) (fails : Effect → Bool) (now : ℚ)
    (st : BotState) (d : Detection) : Bool × BotState × List Effect :=
  if d.distance_from_center > max_distance cfg d.class_name then (false, st, [])
  else
    match dispatch_action cfg fails st d with
    | .error effs => (false, st, effs)
    | .ok (false, st1, effs) => (false, st1, effs)
    | .ok (true, st1, effs) =>
      let st2 : BotState :=
        { st1 with
          actions_performed := st1.actions_performed + 1
          last_mob_detection_time := now }
      if st2.is_searching then
        match end_mob_search cfg fails now st2 with
        | .error (st3, effs2) => (false, st3, effs ++ effs2)
        | .ok (st3, effs2) => (true, st3, effs ++ effs2)
      else (true, st2, effs)

/-- `_should_search_for_mobs`: search only when mob hunting is enabled,
no search is in progress, and the idle time exceeds the search delay. -/
def should_search_for_mobs (cfg : Config) (now : ℚ) (st : BotState) : Bool :=
  if (cfg.mob_hunting_enable.getD false) = false then false
  else if st.is_searching then false
  else decide (now - st.last_mob_detection_time > cfg.search_delay_seconds.getD 5)

/-- `_start_mob_search`: enter `Searching`, stamp the start time and reset
the move counter. -/
def start_mob_search (now : ℚ) (st : BotState) : BotState :=
  if st.is_searching then st
  else
    { st with is_searching := true, search_start_time := now, search_moves := 0 }

/-- `_horizontal_search`: hold the configured left/right key, count the
move, and flip direction (resetting the counter) after five moves. -/
def horizontal_search (cfg : Config) (fails : Effect → Bool) (st : BotState) :
    Except (BotState × List Effect) (BotState × List Effect) :=
  let key_name := if st.search_direction > 0 then "right" else "left"
  let move_key := movement_key cfg key_name
  if fails (Effect.keyDown move_key) then .error (st, [Effect.keyDown move_key])
  else if fails (Effect.keyUp move_key) then
    .error (st, [Effect.keyDown move_key, Effect.keyUp move_key])
  else
    let st1 := { st with search_moves := st.search_moves + 1 }
    let st2 :=
      if st1.search_moves ≥ 5 then
        { st1 with search_direction := st1.search_direction * (-1), search_moves := 0 }
      else st1
    .ok (st2, [Effect.keyDown move_key, Effect.keyUp move_key])

/-- `_vertical_search`: alternate a plain jump with a hold-down-then-jump
step, counting the move. -/
def vertical_search (cfg : Config) (fails : Effect → Bool) (st : BotState) :
    Except (BotState × List Effect) (BotState × List Effect) :=
  let jump_key := movement_key cfg "jump"
  let down_key := movement_key cfg "down"
  if st.search_moves % 2 = 0 then
    if fails (Effect.press jump_key) then .error (st, [Effect.press jump_key])
    else .ok ({ st with search_moves := st.search_moves + 1 }, [Effect.press jump_key])
  else
    if fails (Effect.keyDown down_key) then .error (st, [Effect.keyDown down_key])
    else if fails (Effect.press jump_key) then
      .error (st, [Effect.keyDown down_key, Effect.press jump_key])
    else if fails (Effect.keyUp down_key) then
      .error (st, [Effect.keyDown down_key, Effect.press jump_key, Effect.keyUp down_key])
    else
      .ok ({ st with search_moves := st.search_moves + 1 },
        [Effect.keyDown down_key, Effect.press jump_key, Effect.keyUp down_key])

/-- `_random_search`: `random.choice(['left', 'right', 'jump'])` modelled
by an external choice index; press for jump, hold for the others; count
the move. -/
def random_search (cfg : Config) (fails : Effect → Bool) (rand : Nat)
    (st : BotState) : Except (BotState × List Effect) (BotState × List Effect) :=
  let choice := (["left", "right", "jump"].getD (rand % 3) "left")
  let move_key_val := movement_key cfg choice
  if choice = "jump" then
    if fails (Effect.press move_key_val) then .error (st, [Effect.press move_key_val])
    else .ok ({ st with search_moves := st.search_moves + 1 }, [Effect.press move_key_val])
  else
    if fails (Effect.keyDown move_key_val) then .error (st, [Effect.keyDown move_key_val])
    else if fails (Effect.keyUp move_key_val) then
      .error (st, [Effect.keyDown move_key_val, Effect.keyUp move_key_val])
    else
      .ok ({ st with search_moves := st.search_moves + 1 },
        [Effect.keyDown move_key_val, Effect.keyUp move_key_val])

/-- `_perform_mob_search`: one search step per cycle — end the search on
timeout, otherwise run one step of the configured pattern. -/
def perform_mob_search (cfg : Config) (fails : Effect → Bool) (now : ℚ)
    (rand : Nat) (st : BotState) :
    Except (BotState × List Effect) (BotState × List Effect) :=
  if st.is_searching = false then .ok (st, [])
  else if now - st.search_start_time > cfg.max_search_time_seconds.getD 20 then
    end_mob_search cfg fails now st
  else
    let pat := cfg.search_pattern.getD "horizontal"
    if pat = "horizontal" then horizontal_search cfg fails st
    else if pat = "vertical" then vertical_search cfg fails st
    else if pat = "random" then random_search cfg fails rand st
    else .ok (st, [])

/-- The per-cycle meaningfulness test of `start_automation`
(lines 581–584): some detection within its class's maximum distance whose
configured action is not `log_only`. -/
def meaningful_detection (cfg : Config) (detections : List Detection) : Bool :=
  detections.any fun d =>
    decide (d.distance_from_center ≤ max_distance cfg d.class_name) &&
      decide (action_type cfg d.class_name ≠ "log_only")

/-- Whether the resolved action kind is one of the three that perform an
action (`attack`, `pickup`, `interact`). -/
def actionable (cfg : Config) (d : Detection) : Bool :=
  decide (action_type cfg d.class_name = "attack") ||
  decide (action_type cfg d.class_name = "pickup") ||
  decide (action_type cfg d.class_name = "interact")

/-- The purely configuration-determined dispatch outcome: when no
injection fails, `perform_action` returns `true` exactly for these
detections. -/
def eligible (cfg : Config) (d : Detection) : Bool :=
  actionable cfg d &&
    decide (d.distance_from_center ≤ max_distance cfg d.class_name)

/-- Result of the per-cycle action dispatch loop. -/
structure LoopOut where
  st : BotState
  count : Nat
  effects : List Effect
  remaining : List Detection
  deriving DecidableEq, Repr

/-- The dispatch loop of `start_automation` (lines 590–597): walk the
ordered detections, count successful actions, and break once the count
reaches the per-cycle cap; `remaining` is the suffix skipped by the
break. -/
def action_loop (cfg : Config) (fails : Effect → Bool) (now : ℚ) (cap : Nat) :
    List Detection → BotState → Nat → LoopOut
  | [], st, count => ⟨st, count, [], []⟩
  | d :: rest, st, count =>
    let r := perform_action cfg fails now st d
    if r.1 then
      if count + 1 ≥ cap then ⟨r.2.1, count + 1, r.2.2, rest⟩
      else
        let o := action_loop cfg fails now cap rest r.2.1 (count + 1)
        ⟨o.st, o.count, r.2.2 ++ o.effects, o.remaining⟩
    else
      let o := action_loop cfg fails now cap rest r.2.1 count
      ⟨o.st, o.count, r.2.2 ++ o.effects, o.remaining⟩

/-- Result of one orchestrator cycle.  `ok = false` models an exception
escaping to the outer handler of `start_automation` (which stops the
loop); the cycle's mutations up to that point are kept. -/
structure CycleOut where
  st : BotState
  actions : Nat
  effects : List Effect
  ok : Bool
  deriving DecidableEq, Repr

/-- The tail of one cycle of `start_automation` after the
meaningfulness/search-reset step: the capped dispatch loop (lines
590–597), then the conditional search start (lines 601–602) and one
search step (line 604). -/
def cycle_after (cfg : Config) (fails : Effect → Bool) (now : ℚ) (rand : Nat)
    (meaningful : Bool) (detections : List Detection) (st1 : BotState)
    (effs1 : List Effect) : CycleOut :=
  let cap := cfg.max_actions_per_cycle.getD 2
  let lo := action_loop cfg fails now cap detections st1 0
  let st2 :=
    if meaningful = false && should_search_for_mobs cfg now lo.st then
      start_mob_search now lo.st
    else lo.st
  let fin : BotState × List Effect × Bool :=
    if st2.is_searching then
      match perform_mob_search cfg fails now rand st2 with
      | .error (st3, effs3) => (st3, effs3, false)
      | .ok (st3, effs3) => (st3, effs3, true)
    else (st2, [], true)
  ⟨fin.1, lo.count, effs1 ++ lo.effects ++ fin.2.1, fin.2.2⟩

/-- One decision cycle of `start_automation` (lines 577–604): prioritize
the raw detections (inside `detect_objects`, which also counts them),
compute the meaningfulness flag, reset the search timer and end a running
search when the flag holds, then run the rest of the cycle
(`cycle_after`). -/
def run_cycle (cfg : Config) (fails : Effect → Bool) (now : ℚ) (rand : Nat)
    (st : BotState) (raw : List Detection) : CycleOut :=
  let detections := prioritize_detections cfg raw
  let st0 := { st with detections := st.detections + detections.length }
  let meaningful := meaningful_detection cfg detections
  let pre : Except (BotState × List Effect) (BotState × List Effect) :=
    if meaningful then
      let stA := { st0 with last_mob_detection_time := now }
      if stA.is_searching then end_mob_search cfg fails now stA
      else .ok (stA, [])
    else .ok (st0, [])
  match pre with
  | .error (st1, effs1) => ⟨st1, 0, effs1, false⟩
  | .ok (st1, effs1) => cycle_after cfg fails now rand meaningful detections st1 effs1

/-! ### Concrete fixtures (the default configuration of `_get_default_config`) -/

/-- The default `detection_behavior` section of `_get_default_config`. -/
def default_behavior : List (String × ClassBehavior) :=
  [("mob", ⟨some "attack", some 500, some 150⟩),
   ("item", ⟨some "pickup", none, some 100⟩),
   ("npc", ⟨some "interact", none, some 80⟩)]

/-- Configuration snapshot matching `_get_default_config` of `auto.py`. -/
def default_config : Config :=
  { monitor_left := 0
    monitor_top := 0
    priority_targets := ["item", "mob", "npc"]
    max_detection_distance := some 150
    max_actions_per_cycle := none
    detection_behavior := default_behavior
    attack_method := some "click"
    attack_key := some "ctrl"
    pickup_key := some "z"
    interact_key := some "space"
    movement_keys := [("left", "left"), ("right", "right"), ("jump", "alt"), ("down", "down")]
    mob_hunting_enable := some false
    search_delay_seconds := some 5
    max_search_time_seconds := some 20
    search_pattern := some "horizontal"
    move_duration_ms := some 300
    return_to_center := some true }

/-- Fresh run state at session start (all statistics zero, not searching). -/
def init_state : BotState :=
  { detections := 0, actions_performed := 0, items_collected := 0
    mobs_attacked := 0, npcs_interacted := 0, searches_performed := 0
    search_time_total := 0, last_mob_detection_time := 0, is_searching := false
    search_start_time := 0, search_direction := 1, search_moves := 0 }

/-- Failure oracle under which every injection succeeds. -/
def no_failure : Effect → Bool := fun _ => false

/-- A mob detection close to the screen center. -/
def d_mob10 : Detection := ⟨[0, 0, 10, 10], 9/10, 0, "mob", (5, 5), 10⟩

/-- An item detection close to the screen center. -/
def d_item20 : Detection := ⟨[0, 0, 10, 10], 9/10, 1, "item", (5, 5), 20⟩

/-- An npc detection close to the screen center. -/
def d_npc30 : Detection := ⟨[0, 0, 10, 10], 9/10, 2, "npc", (5, 5), 30⟩

/-- A configuration whose only behavior entry maps the class `boss` to an
`attack` action (a class with no dedicated statistics counter). -/
def cfg_boss : Config :=
  { default_config with
    detection_behavior := [("boss", ⟨some "attack", none, some 150⟩)] }

/-- A boss detection close to the screen center. -/
def d_boss : Detection := ⟨[0, 0, 10, 10], 9/10, 3, "boss", (5, 5), 10⟩

/-- The run state produced by a first successful mob attack at time 7. -/
def mob_hit_state : BotState :=
  { init_state with
    actions_performed := 1, mobs_attacked := 1, last_mob_detection_time := 7 }

/-- The injections of a click-method attack at screen point (5, 5). -/
def mob_hit_effects : List Effect :=
  [Effect.moveTo 5 5 (1/20), Effect.click]

/-- The default configuration with a per-cycle action cap of 0. -/
def cfg_cap0 : Config := { default_config with max_actions_per_cycle := some 0 }

/-- The default configuration with the class `mob` mapped to the `ignore`
action kind (one of the five kinds offered by the configuration UI). -/
def cfg_ignore : Config :=
  { default_config with
    detection_behavior := [("mob", ⟨some "ignore", none, some 150⟩)] }

/-- A priority list of length 1000: 999 copies of `x` followed by `y`,
so that the rank of the present class `y` is the sentinel value 999. -/
def targets1000 : List String := List.replicate 999 "x" ++ ["y"]

/-- The default configuration with `targets1000` as priority list. -/
def cfg_rank999 : Config :=
  { default_config with priority_targets := targets1000 }

/-- A detection of the listed class `y`, at distance 2. -/
def d_pres : Detection := ⟨[0, 0, 10, 10], 9/10, 4, "y", (5, 5), 2⟩

/-- A detection of the unlisted class `z`, at distance 1. -/
def d_abs : Detection := ⟨[0, 0, 10, 10], 9/10, 5, "z", (5, 5), 1⟩

/-- A detection of the unlisted class `w`, at distance 3. -/
def d_abs2 : Detection := ⟨[0, 0, 10, 10], 9/10, 6, "w", (5, 5), 3⟩

/-- Whether an injection is a `keyDown` (the start of one key-hold
movement step). -/
def is_key_down : Effect → Bool
  | .keyDown _ => true
  | _ => false

/-- The number of key-hold movement steps among a list of injections. -/
def count_key_down (effs : List Effect) : Nat := effs.countP is_key_down

/-- A searching run state whose current segment made 2 moves. -/
def st_search2 : BotState :=
  { init_state with is_searching := true, search_start_time := 10, search_moves := 2 }

/-- A searching run state whose current segment made 5 moves. -/
def st_search5 : BotState :=
  { init_state with is_searching := true, search_start_time := 10, search_moves := 5 }

/-! ### Helper lemmas about `perform_action` -/

/-! ### Lemmas about the stable sort -/

theorem insort_perm (le : α → α → Bool) (a : α) :
    ∀ l : List α, List.Perm (insort le a l) (a :: l) := by
  intro l
  induction l with
  | nil => exact List.Perm.refl _
  | cons b l ih =>
    simp only [insort]
    split
    · exact List.Perm.refl _
    · exact (ih.cons b).trans (List.Perm.swap a b l)

theorem stable_sort_perm (le : α → α → Bool) :
    ∀ l : List α, List.Perm (stable_sort le l) l := by
  intro l
  induction l with
  | nil => exact List.Perm.refl _
  | cons x xs ih =>
    simp only [stable_sort]
    exact (insort_perm le x (stable_sort le xs)).trans (ih.cons x)

theorem mem_insort (le : α → α → Bool) (a x : α) (l : List α) :
    x ∈ insort le a l ↔ x = a ∨ x ∈ l := by
  constructor
  · intro h
    have := (insort_perm le a l).mem_iff.mp h
    simpa using this
  · intro h
    apply (insort_perm le a l).mem_iff.mpr
    simpa using h

theorem insort_sorted (le : α → α → Bool)
    (trans : ∀ x y z, le x y = true → le y z = true → le x z = true)
    (total : ∀ x y, (le x y || le y x) = true) (a : α) :
    ∀ l : List α, l.Pairwise (fun x y => le x y = true) →
      (insort le a l).Pairwise (fun x y => le x y = true) := by
  intro l
  induction l with
  | nil => intro _; simp [insort]
  | cons b l ih =>
    intro hp
    rw [List.pairwise_cons] at hp
    simp only [insort]
    split
    · rename_i hab
      rw [List.pairwise_cons]
      refine ⟨?_, List.pairwise_cons.mpr hp⟩
      intro x hx
      rcases List.mem_cons.mp hx with rfl | hx
      · exact hab
      · exact trans a b x hab (hp.1 x hx)
    · rename_i hab
      rw [List.pairwise_cons]
      refine ⟨?_, ih hp.2⟩
      intro x hx
      rcases (mem_insort le a x l).mp hx with rfl | hx
      · rcases Bool.or_eq_true_iff.mp (total x b) with h | h
        · exact absurd h hab
        · exact h
      · exact hp.1 x hx

theorem stable_sort_sorted (le : α → α → Bool)
    (trans : ∀ x y z, le x y = true → le y z = true → le x z = true)
    (total : ∀ x y, (le x y || le y x) = true) :
    ∀ l : List α, (stable_sort le l).Pairwise (fun x y => le x y = true) := by
  intro l
  induction l with
  | nil => simp [stable_sort]
  | cons x xs ih => exact insort_sorted le trans total x _ ih

theorem insort_of_le_head (le : α → α → Bool) (a : α) :
    ∀ l : List α, (∀ x ∈ l, le a x = true) → insort le a l = a :: l := by
  intro l h
  cases l with
  | nil => rfl
  | cons b l =>
    simp only [insort]
    rw [if_pos (h b (List.mem_cons_self b l))]

theorem stable_sort_of_sorted (le : α → α → Bool) :
    ∀ l : List α, l.Pairwise (fun x y => le x y = true) →
      stable_sort le l = l := by
  intro l
  induction l with
  | nil => intro _; rfl
  | cons x xs ih =>
    intro hp
    rw [List.pairwise_cons] at hp
    simp only [stable_sort]
    rw [ih hp.2]
    exact insort_of_le_head le x xs hp.1

theorem insort_filter_pos (le : α → α → Bool) (p : α → Bool) (a : α)
    (hpa : p a = true) (hkey : ∀ x, p x = true → le a x = true) :
    ∀ l : List α, (insort le a l).filter p = a :: l.filter p := by
  intro l
  induction l with
  | nil => simp [insort, hpa]
  | cons b l ih =>
    simp only [insort]
    split
    · simp [List.filter_cons, hpa]
    · rename_i hab
      have hpb : p b = false := by
        cases hb : p b
        · rfl
        · exact absurd (hkey b hb) hab
      simp [List.filter_cons, hpb, ih]

theorem insort_filter_neg (le : α → α → Bool) (p : α → Bool) (a : α)
    (hpa : p a = false) :
    ∀ l : List α, (insort le a l).filter p = l.filter p := by
  intro l
  induction l with
  | nil => simp [insort, hpa]
  | cons b l ih =>
    simp only [insort]
    split
    · simp [List.filter_cons, hpa]
    · cases hb : p b <;> simp [List.filter_cons, hb, ih]

theorem stable_sort_filter (le : α → α → Bool) (p : α → Bool)
    (hp : ∀ x y, p x = true → p y = true → le x y = true) :
    ∀ l : List α, (stable_sort le l).filter p = l.filter p := by
  intro l
  induction l with
  | nil => rfl
  | cons x xs ih =>
    simp only [stable_sort]
    cases hpx : p x with
    | true =>
      rw [insort_filter_pos le p x hpx (fun z hz => hp x z hpx hz), ih]
      simp [List.filter_cons, hpx]
    | false =>
      rw [insort_filter_neg le p x hpx, ih]
      simp [List.filter_cons, hpx]

theorem rtc_loop_true_no_failure (fails : Effect → Bool) (key : String) :
    ∀ n, (rtc_loop fails key n).1 = true →
      ∀ e ∈ (rtc_loop fails key n).2, fails e = false := by
  intro n
  induction n with
  | zero => intro _ e he; simp [rtc_loop] at he
  | succ n ih =>
    intro h e he
    by_cases h1 : fails (Effect.keyDown key) = true
    · simp [rtc_loop, h1] at h
    · by_cases h2 : fails (Effect.keyUp key) = true
      · simp [rtc_loop, h1, h2] at h
      · simp only [Bool.not_eq_true] at h1 h2
        simp only [rtc_loop, h1, h2, Bool.false_eq_true, if_false,
          List.mem_cons] at h he
        rcases he with he | he | he
        · rw [he]; exact h1
        · rw [he]; exact h2
        · exact ih h e he

theorem end_mob_search_ok_no_failure (cfg : Config) (fails : Effect → Bool)
    (now : ℚ) (st st' : BotState) (effs : List Effect)
    (h : end_mob_search cfg fails now st = .ok (st', effs)) :
    ∀ e ∈ effs, fails e = false := by
  simp only [end_mob_search] at h
  split at h
  · simp only [Except.ok.injEq, Prod.mk.injEq] at h
    intro e he
    rw [← h.2] at he
    simp at he
  · split at h
    · split at h
      · rename_i hok
        simp only [Except.ok.injEq, Prod.mk.injEq] at h
        intro e he
        rw [← h.2] at he
        exact rtc_loop_true_no_failure fails _ _ hok e he
      · cases h
    · simp only [Except.ok.injEq, Prod.mk.injEq] at h
      intro e he
      rw [← h.2] at he
      simp at he

theorem end_mob_search_not_searching (cfg : Config) (fails : Effect → Bool)
    (now : ℚ) (st st' : BotState) (effs : List Effect)
    (h : end_mob_search cfg fails now st = .ok (st', effs) ∨
         end_mob_search cfg fails now st = .error (st', effs)) :
    st'.is_searching = false := by
  simp only [end_mob_search] at h
  rcases h with h | h
  · split at h
    · rename_i hs
      simp only [Except.ok.injEq, Prod.mk.injEq] at h
      rw [← h.1]; exact hs
    · split at h
      · split at h
        · simp only [Except.ok.injEq, Prod.mk.injEq] at h
          rw [← h.1]
        · cases h
      · simp only [Except.ok.injEq, Prod.mk.injEq] at h
        rw [← h.1]
  · split at h
    · cases h
    · split at h
      · split at h
        · cases h
        · simp only [Except.error.injEq, Prod.mk.injEq] at h
          rw [← h.1]
      · cases h

theorem end_mob_search_preserves (cfg : Config) (fails : Effect → Bool)
    (now : ℚ) (st st' : BotState) (effs : List Effect)
    (h : end_mob_search cfg fails now st = .ok (st', effs) ∨
         end_mob_search cfg fails now st = .error (st', effs)) :
    st'.actions_performed = st.actions_performed ∧
    st'.mobs_attacked = st.mobs_attacked ∧
    st'.items_collected = st.items_collected ∧
    st'.npcs_interacted = st.npcs_interacted ∧
    st'.last_mob_detection_time = st.last_mob_detection_time ∧
    st'.detections = st.detections := by
  simp only [end_mob_search] at h
  rcases h with h | h <;> split at h
  · simp only [Except.ok.injEq, Prod.mk.injEq] at h
    rw [← h.1]; exact ⟨rfl, rfl, rfl, rfl, rfl, rfl⟩
  · split at h
    · split at h
      · simp only [Except.ok.injEq, Prod.mk.injEq] at h
        rw [← h.1]; exact ⟨rfl, rfl, rfl, rfl, rfl, rfl⟩
      · cases h
    · simp only [Except.ok.injEq, Prod.mk.injEq] at h
      rw [← h.1]; exact ⟨rfl, rfl, rfl, rfl, rfl, rfl⟩
  · cases h
  · split at h
    · split at h
      · cases h
      · simp only [Except.error.injEq, Prod.mk.injEq] at h
        rw [← h.1]; exact ⟨rfl, rfl, rfl, rfl, rfl, rfl⟩
    · cases h

theorem rtc_loop_no_failure_fst (fails : Effect → Bool) (key : String)
    (hf : ∀ e, fails e = false) : ∀ n, (rtc_loop fails key n).1 = true := by
  intro n
  induction n with
  | zero => rfl
  | succ n ih => simp [rtc_loop, hf, ih]

theorem end_mob_search_no_failure_ok (cfg : Config) (fails : Effect → Bool)
    (now : ℚ) (st : BotState) (hf : ∀ e, fails e = false) :
    ∃ st' effs, end_mob_search cfg fails now st = .ok (st', effs) := by
  simp only [end_mob_search]
  split
  · exact ⟨_, _, rfl⟩
  · split
    · rw [if_pos]
      · exact ⟨_, _, rfl⟩
      · exact rtc_loop_no_failure_fst fails _ hf _
    · exact ⟨_, _, rfl⟩

/-! ### Helper lemmas about `dispatch_action` -/

theorem dispatch_action_ok_true_action (cfg : Config) (fails : Effect → Bool)
    (st : BotState) (d : Detection) (st1 : BotState) (effs : List Effect)
    (h : dispatch_action cfg fails st d = .ok (true, st1, effs)) :
    action_type cfg d.class_name = "attack" ∨
    action_type cfg d.class_name = "pickup" ∨
    action_type cfg d.class_name = "interact" := by
  simp only [dispatch_action] at h
  split at h
  · rename_i ha; exact Or.inl ha
  · split at h
    · rename_i ha; exact Or.inr (Or.inl ha)
    · split at h
      · rename_i ha; exact Or.inr (Or.inr ha)
      · simp at h

theorem dispatch_action_preserves (cfg : Config) (fails : Effect → Bool)
    (st : BotState) (d : Detection) (b : Bool) (st1 : BotState)
    (effs : List Effect)
    (h : dispatch_action cfg fails st d = .ok (b, st1, effs)) :
    st1.is_searching = st.is_searching ∧
    st1.actions_performed = st.actions_performed ∧
    st1.last_mob_detection_time = st.last_mob_detection_time ∧
    st1.searches_performed = st.searches_performed ∧
    st1.search_time_total = st.search_time_total ∧
    st1.search_start_time = st.search_start_time ∧
    st1.search_direction = st.search_direction ∧
    st1.search_moves = st.search_moves ∧
    st1.detections = st.detections := by
  simp only [dispatch_action] at h
  split at h
  · split at h
    · simp at h
    · split at h
      · simp at h
      · simp only [Except.ok.injEq, Prod.mk.injEq] at h
        rw [← h.2.1]
        split <;> exact ⟨rfl, rfl, rfl, rfl, rfl, rfl, rfl, rfl, rfl⟩
  · split at h
    · split at h
      · simp at h
      · split at h
        · simp at h
        · simp only [Except.ok.injEq, Prod.mk.injEq] at h
          rw [← h.2.1]
          split <;> exact ⟨rfl, rfl, rfl, rfl, rfl, rfl, rfl, rfl, rfl⟩
    · split at h
      · split at h
        · simp at h
        · split at h
          · simp at h
          · simp only [Except.ok.injEq, Prod.mk.injEq] at h
            rw [← h.2.1]
            split <;> exact ⟨rfl, rfl, rfl, rfl, rfl, rfl, rfl, rfl, rfl⟩
      · simp only [Except.ok.injEq, Prod.mk.injEq] at h
        rw [← h.2.1]
        exact ⟨rfl, rfl, rfl, rfl, rfl, rfl, rfl, rfl, rfl⟩

theorem dispatch_action_no_failure (cfg : Config) (fails : Effect → Bool)
    (st : BotState) (d : Detection) (hf : ∀ e, fails e = false) :
    ∃ r, dispatch_action cfg fails st d = .ok r ∧ r.1 = actionable cfg d := by
  unfold dispatch_action
  simp only [hf, Bool.false_eq_true, if_false]
  split
  · rename_i ha
    exact ⟨_, rfl, by simp [actionable, ha]⟩
  · split
    · rename_i ha
      exact ⟨_, rfl, by simp [actionable, ha]⟩
    · split
      · rename_i ha
        exact ⟨_, rfl, by simp [actionable, ha]⟩
      · rename_i h1 h2 h3
        exact ⟨_, rfl, by simp [actionable, h1, h2, h3]⟩

theorem dispatch_action_ok_no_failure (cfg : Config) (fails : Effect → Bool)
    (st : BotState) (d : Detection) (b : Bool) (st1 : BotState)
    (effs : List Effect)
    (h : dispatch_action cfg fails st d = .ok (b, st1, effs)) :
    ∀ e ∈ effs, fails e = false := by
  simp only [dispatch_action] at h
  split at h
  · split at h
    · simp at h
    · rename_i h1
      split at h
      · simp at h
      · rename_i h2
        simp only [Bool.not_eq_true] at h1 h2
        simp only [Except.ok.injEq, Prod.mk.injEq] at h
        intro e he
        rw [← h.2.2] at he
        simp only [List.mem_cons, List.not_mem_nil, or_false] at he
        rcases he with he | he <;> rw [he] <;> assumption
  · split at h
    · split at h
      · simp at h
      · rename_i h1
        split at h
        · simp at h
        · rename_i h2
          simp only [Bool.not_eq_true] at h1 h2
          simp only [Except.ok.injEq, Prod.mk.injEq] at h
          intro e he
          rw [← h.2.2] at he
          simp only [List.mem_cons, List.not_mem_nil, or_false] at he
          rcases he with he | he <;> rw [he] <;> assumption
    · split at h
      · split at h
        · simp at h
        · rename_i h1
          split at h
          · simp at h
          · rename_i h2
            simp only [Bool.not_eq_true] at h1 h2
            simp only [Except.ok.injEq, Prod.mk.injEq] at h
            intro e he
            rw [← h.2.2] at he
            simp only [List.mem_cons, List.not_mem_nil, or_false] at he
            rcases he with he | he <;> rw [he] <;> assumption
      · simp only [Except.ok.injEq, Prod.mk.injEq] at h
        intro e he
        rw [← h.2.2] at he
        simp at he

theorem dispatch_action_class_stats (cfg : Config) (fails : Effect → Bool)
    (st : BotState) (d : Detection) (st1 : BotState) (effs : List Effect)
    (h : dispatch_action cfg fails st d = .ok (true, st1, effs)) :
    st1.mobs_attacked = st.mobs_attacked +
      (if action_type cfg d.class_name = "attack" ∧ d.class_name = "mob"
       then 1 else 0) ∧
    st1.items_collected = st.items_collected +
      (if action_type cfg d.class_name = "pickup" ∧ d.class_name = "item"
       then 1 else 0) ∧
    st1.npcs_interacted = st.npcs_interacted +
      (if action_type cfg d.class_name = "interact" ∧ d.class_name = "npc"
       then 1 else 0) := by
  simp only [dispatch_action] at h
  split at h
  · rename_i ha
    split at h
    · simp at h
    · split at h
      · simp at h
      · simp only [Except.ok.injEq, Prod.mk.injEq] at h
        rw [← h.2.1]
        by_cases hc : d.class_name = "mob"
        · rw [hc] at ha ⊢; simp [ha]
        · simp [ha, hc]
  · split at h
    · rename_i ha
      split at h
      · simp at h
      · split at h
        · simp at h
        · simp only [Except.ok.injEq, Prod.mk.injEq] at h
          rw [← h.2.1]
          by_cases hc : d.class_name = "item"
          · rw [hc] at ha ⊢; simp [ha]
          · simp [ha, hc]
    · split at h
      · rename_i ha
        split at h
        · simp at h
        · split at h
          · simp at h
          · simp only [Except.ok.injEq, Prod.mk.injEq] at h
            rw [← h.2.1]
            by_cases hc : d.class_name = "npc"
            · rw [hc] at ha ⊢; simp [ha]
            · simp [ha, hc]
      · simp at h

/-! ### Helper lemmas about `perform_action` -/

theorem perform_action_true_spec (cfg : Config) (fails : Effect → Bool)
    (now : ℚ) (st : BotState) (d : Detection)
    (h : (perform_action cfg fails now st d).1 = true) :
    d.distance_from_center ≤ max_distance cfg d.class_name ∧
      (action_type cfg d.class_name = "attack" ∨
       action_type cfg d.class_name = "pickup" ∨
       action_type cfg d.class_name = "interact") := by
  unfold perform_action at h
  split at h
  · simp at h
  · rename_i hgate
    refine ⟨le_of_not_lt hgate, ?_⟩
    cases hd : dispatch_action cfg fails st d with
    | error effs => rw [hd] at h; simp at h
    | ok r =>
      obtain ⟨b, st1, effs⟩ := r
      rw [hd] at h
      cases b with
      | false => simp at h
      | true => exact dispatch_action_ok_true_action cfg fails st d st1 effs hd

theorem perform_action_not_searching (cfg : Config) (fails : Effect → Bool)
    (now : ℚ) (st : BotState) (d : Detection)
    (hs : st.is_searching = false) :
    ((perform_action cfg fails now st d).2.1).is_searching = false := by
  unfold perform_action
  split
  · exact hs
  · cases hd : dispatch_action cfg fails st d with
    | error effs => exact hs
    | ok r =>
      obtain ⟨b, st1, effs⟩ := r
      have hpres := (dispatch_action_preserves cfg fails st d b st1 effs hd).1
      have h2 : st1.is_searching = false := hpres.trans hs
      cases b with
      | false => simpa using h2
      | true => simp [h2]

theorem perform_action_no_failure_fst (cfg : Config) (fails : Effect → Bool)
    (now : ℚ) (st : BotState) (d : Detection) (hf : ∀ e, fails e = false) :
    (perform_action cfg fails now st d).1 = eligible cfg d := by
  unfold perform_action
  split
  · rename_i hgate
    have hd : decide (d.distance_from_center ≤ max_distance cfg d.class_name) = false := by
      simpa using not_le.mpr hgate
    simp [eligible, hd]
  · rename_i hgate
    have hle : d.distance_from_center ≤ max_distance cfg d.class_name :=
      le_of_not_lt hgate
    obtain ⟨r, hr, hb⟩ := dispatch_action_no_failure cfg fails st d hf
    obtain ⟨b, st1, effs⟩ := r
    rw [hr]
    simp only at hb
    subst hb
    cases hba : actionable cfg d with
    | false => simp [eligible, hba]
    | true =>
      rw [show eligible cfg d = true by simp [eligible, hba, hle]]
      dsimp only
      split
      · obtain ⟨st', effs', hok⟩ := end_mob_search_no_failure_ok cfg fails now _ hf
        rw [hok]
      · rfl

/-- C1: a Detection Record whose distance-from-center strictly exceeds its
class's configured maximum distance (the class policy's `max_distance`, or
the `automation.max_detection_distance` fallback, default 150) is rejected
by `perform_action` before anything happens: the result is `false`, no
injection effect is attempted, and the run state — in particular every
statistic — is returned unchanged.  The record's priority plays no role:
`perform_action` does not consult the priority order at all. -/
theorem perform_action_distance_gate (cfg : Config) (fails : Effect → Bool)
    (now : ℚ) (st : BotState) (d : Detection)
    (h : max_distance cfg d.class_name < d.distance_from_center) :
    perform_action cfg fails now st d = (false, st, []) := by
  unfold perform_action
  rw [if_pos h]

/-- Witness for C1: the default `npc` policy has `max_distance = 80`; an
npc detection at distance 100 is rejected with no effect and no state
change. -/
theorem perform_action_distance_gate_witness :
    max_distance default_config "npc" < (100 : ℚ) ∧
      perform_action default_config no_failure 7 init_state
        ⟨[0, 0, 10, 10], 9/10, 2, "npc", (5, 5), 100⟩ = (false, init_state, []) :=
  ⟨by decide, perform_action_distance_gate default_config no_failure 7 init_state
    ⟨[0, 0, 10, 10], 9/10, 2, "npc", (5, 5), 100⟩ (by decide)⟩

/-- C7: `perform_action` wraps every injection in a `try/except`; a failed
injection is treated as "no action performed".  Formally: whenever
`perform_action` reports `true`, every injection it attempted succeeded —
equivalently, if any attempted injection failed, the result is `false`
(and, the function being total, the failure never propagates to the
cycle). -/
theorem perform_action_failure_caught (cfg : Config) (fails : Effect → Bool)
    (now : ℚ) (st : BotState) (d : Detection)
    (h : (perform_action cfg fails now st d).1 = true) :
    ∀ e ∈ (perform_action cfg fails now st d).2.2, fails e = false := by
  unfold perform_action at h ⊢
  split at h
  · simp at h
  · rename_i hgate
    rw [if_neg hgate]
    cases hd : dispatch_action cfg fails st d with
    | error effs => rw [hd] at h; simp at h
    | ok r =>
      obtain ⟨b, st1, effs⟩ := r
      rw [hd] at h
      have hde := dispatch_action_ok_no_failure cfg fails st d b st1 effs hd
      cases b with
      | false => simp at h
      | true =>
        dsimp only at h ⊢
        generalize ({ st1 with
            actions_performed := st1.actions_performed + 1
            last_mob_detection_time := now } : BotState) = st2 at h ⊢
        split at h
        · rename_i hsearch
          rw [if_pos hsearch]
          cases he : end_mob_search cfg fails now st2 with
          | error p => rw [he] at h; simp at h
          | ok p =>
            obtain ⟨st3, effs2⟩ := p
            intro e hmem
            dsimp only at hmem
            rcases List.mem_append.mp hmem with hm | hm
            · exact hde e hm
            · exact end_mob_search_ok_no_failure cfg fails now st2 st3 effs2 he e hm
        · rename_i hsearch
          rw [if_neg hsearch]
          intro e hmem
          exact hde e hmem

/-- Witness for C7: an item pickup whose pointer move fails — the result
is `false`; and a run where everything succeeds reports `true` with every
attempted injection succeeding. -/
theorem perform_action_failure_caught_witness :
    (perform_action default_config no_failure 7 init_state
        ⟨[0, 0, 10, 10], 9/10, 1, "item", (5, 5), 50⟩).1 = true ∧
      ∀ e ∈ (perform_action default_config no_failure 7 init_state
        ⟨[0, 0, 10, 10], 9/10, 1, "item", (5, 5), 50⟩).2.2, no_failure e = false :=
  ⟨by decide, perform_action_failure_caught default_config no_failure 7 init_state
    ⟨[0, 0, 10, 10], 9/10, 1, "item", (5, 5), 50⟩ (by decide)⟩

/-! ### Lemmas about the dispatch loop and the cycle -/

theorem perform_action_true_meaningfulD (cfg : Config) (fails : Effect → Bool)
    (now : ℚ) (st : BotState) (d : Detection)
    (h : (perform_action cfg fails now st d).1 = true) :
    (decide (d.distance_from_center ≤ max_distance cfg d.class_name) &&
      decide (action_type cfg d.class_name ≠ "log_only")) = true := by
  obtain ⟨hle, ha⟩ := perform_action_true_spec cfg fails now st d h
  have hne : action_type cfg d.class_name ≠ "log_only" := by
    rcases ha with ha | ha | ha <;> rw [ha] <;> decide
  simp [hle, hne]

theorem action_loop_count_const (cfg : Config) (fails : Effect → Bool)
    (now : ℚ) (cap : Nat) :
    ∀ (l : List Detection) (st : BotState) (count : Nat),
      (∀ d ∈ l, ∀ s : BotState, (perform_action cfg fails now s d).1 = false) →
      (action_loop cfg fails now cap l st count).count = count := by
  intro l
  induction l with
  | nil => intro st count _; rfl
  | cons d rest ih =>
    intro st count h
    have hd := h d (List.mem_cons_self d rest) st
    simp only [action_loop, hd, Bool.false_eq_true, if_false]
    exact ih _ _ (fun x hx s => h x (List.mem_cons_of_mem d hx) s)

theorem action_loop_not_searching (cfg : Config) (fails : Effect → Bool)
    (now : ℚ) (cap : Nat) :
    ∀ (l : List Detection) (st : BotState) (count : Nat),
      st.is_searching = false →
      (action_loop cfg fails now cap l st count).st.is_searching = false := by
  intro l
  induction l with
  | nil => intro st count h; exact h
  | cons d rest ih =>
    intro st count h
    have hp := perform_action_not_searching cfg fails now st d h
    simp only [action_loop]
    split
    · split
      · exact hp
      · exact ih _ _ hp
    · exact ih _ _ hp

theorem action_loop_cap_exact (cfg : Config) (fails : Effect → Bool)
    (now : ℚ) (cap : Nat) (hf : ∀ e, fails e = false) :
    ∀ (l : List Detection) (st : BotState) (count : Nat),
      count < cap → cap ≤ count + l.countP (eligible cfg) →
      (action_loop cfg fails now cap l st count).count = cap ∧
      (action_loop cfg fails now cap l st count).remaining.countP (eligible cfg) =
        count + l.countP (eligible cfg) - cap := by
  intro l
  induction l with
  | nil =>
    intro st count h1 h2
    simp only [List.countP_nil] at h2
    omega
  | cons d rest ih =>
    intro st count h1 h2
    have hfst : (perform_action cfg fails now st d).1 = eligible cfg d :=
      perform_action_no_failure_fst cfg fails now st d hf
    rw [List.countP_cons] at h2
    simp only [List.countP_cons]
    by_cases helb : eligible cfg d = true
    · have hone : (if eligible cfg d = true then 1 else 0) = 1 := by simp [helb]
      rw [hone] at h2 ⊢
      rw [helb] at hfst
      simp only [action_loop, hfst, if_true]
      by_cases hbreak : count + 1 ≥ cap
      · rw [if_pos hbreak]
        have hcap : count + 1 = cap := by omega
        refine ⟨hcap, ?_⟩
        show List.countP (eligible cfg) rest =
          count + (List.countP (eligible cfg) rest + 1) - cap
        omega
      · rw [if_neg hbreak]
        obtain ⟨hc, hr⟩ := ih (perform_action cfg fails now st d).2.1 (count + 1)
          (by omega) (by omega)
        refine ⟨hc, ?_⟩
        dsimp only
        rw [hr]
        omega
    · have hzero : (if eligible cfg d = true then 1 else 0) = 0 := by simp [helb]
      rw [hzero] at h2 ⊢
      have hfalse : eligible cfg d = false := by simpa using helb
      rw [hfalse] at hfst
      simp only [action_loop, hfst, Bool.false_eq_true, if_false]
      obtain ⟨hc, hr⟩ := ih (perform_action cfg fails now st d).2.1 count h1
        (by omega)
      refine ⟨hc, ?_⟩
      dsimp only
      rw [hr]
      omega

theorem cycle_after_actions (cfg : Config) (fails : Effect → Bool) (now : ℚ)
    (rand : Nat) (m : Bool) (dets : List Detection) (st1 : BotState)
    (effs1 : List Effect) :
    (cycle_after cfg fails now rand m dets st1 effs1).actions =
      (action_loop cfg fails now (cfg.max_actions_per_cycle.getD 2)
        dets st1 0).count := rfl

theorem cycle_after_meaningful_not_searching (cfg : Config)
    (fails : Effect → Bool) (now : ℚ) (rand : Nat) (dets : List Detection)
    (st1 : BotState) (effs1 : List Effect) (hs : st1.is_searching = false) :
    (cycle_after cfg fails now rand true dets st1 effs1).st.is_searching = false := by
  have hlo : (action_loop cfg fails now (cfg.max_actions_per_cycle.getD 2)
      dets st1 0).st.is_searching = false :=
    action_loop_not_searching cfg fails now _ dets st1 0 hs
  unfold cycle_after
  simp [hlo]

theorem run_cycle_actions_loop (cfg : Config) (fails : Effect → Bool)
    (now : ℚ) (rand : Nat) (st : BotState) (raw : List Detection)
    (hf : ∀ e, fails e = false) :
    ∃ s1, (run_cycle cfg fails now rand st raw).actions =
      (action_loop cfg fails now (cfg.max_actions_per_cycle.getD 2)
        (prioritize_detections cfg raw) s1 0).count := by
  unfold run_cycle
  dsimp only
  by_cases hm : meaningful_detection cfg (prioritize_detections cfg raw) = true
  · rw [if_pos hm]
    by_cases hss : st.is_searching = true
    · rw [if_pos hss]
      obtain ⟨st', effs', hok⟩ := end_mob_search_no_failure_ok cfg fails now
        { st with
          detections := st.detections + (prioritize_detections cfg raw).length
          last_mob_detection_time := now } hf
      rw [hok]
      exact ⟨st', rfl⟩
    · rw [if_neg hss]
      exact ⟨_, rfl⟩
  · rw [if_neg hm]
    exact ⟨_, rfl⟩

/-- C4: if a meaningful action was dispatched at any point during a cycle
(the cycle's action count is at least 1 — `perform_action` returned
`true` at least once), the search state machine is not in `Searching` at
the end of that cycle. -/
theorem search_suppression (cfg : Config) (fails : Effect → Bool) (now : ℚ)
    (rand : Nat) (st : BotState) (raw : List Detection)
    (h : 1 ≤ (run_cycle cfg fails now rand st raw).actions) :
    (run_cycle cfg fails now rand st raw).st.is_searching = false := by
  unfold run_cycle at h ⊢
  dsimp only at h ⊢
  by_cases hm : meaningful_detection cfg (prioritize_detections cfg raw) = true
  · rw [if_pos hm] at h ⊢
    by_cases hss : st.is_searching = true
    · rw [if_pos hss] at h ⊢
      cases hres : end_mob_search cfg fails now
          { st with
            detections := st.detections + (prioritize_detections cfg raw).length
            last_mob_detection_time := now } with
      | error p =>
        rw [hres] at h
        simp at h
      | ok p =>
        obtain ⟨st1, effs1⟩ := p
        have h1s : st1.is_searching = false :=
          end_mob_search_not_searching cfg fails now _ st1 effs1 (Or.inl hres)
        dsimp only
        rw [hm]
        exact cycle_after_meaningful_not_searching cfg fails now rand _ st1 effs1 h1s
    · rw [if_neg hss] at h ⊢
      have h1s : st.is_searching = false := by simpa using hss
      dsimp only
      rw [hm]
      exact cycle_after_meaningful_not_searching cfg fails now rand _ _ _ h1s
  · rw [if_neg hm] at h ⊢
    dsimp only at h ⊢
    rw [cycle_after_actions] at h
    have hall : ∀ d ∈ prioritize_detections cfg raw, ∀ s : BotState,
        (perform_action cfg fails now s d).1 = false := by
      intro d hd s
      by_contra hc
      simp only [Bool.not_eq_false] at hc
      have hmd := perform_action_true_meaningfulD cfg fails now s d hc
      exact hm (by unfold meaningful_detection; exact List.any_eq_true.mpr ⟨d, hd, hmd⟩)
    rw [action_loop_count_const cfg fails now _ _ _ 0 hall] at h
    exact absurd h (by omega)

/-- Witness for C4: a cycle of the default configuration acting on one
in-range mob dispatches one action and ends with `is_searching = false`. -/
theorem search_suppression_witness :
    1 ≤ (run_cycle default_config no_failure 7 0 init_state [d_mob10]).actions ∧
      (run_cycle default_config no_failure 7 0 init_state [d_mob10]).st.is_searching = false :=
  ⟨by decide, search_suppression default_config no_failure 7 0 init_state [d_mob10] (by decide)⟩

/-- C2 counterexample: with `automation.max_actions_per_cycle` set to 0
and one eligible detection (more eligible detections than the cap), the
cycle dispatches 1 action, not `cap = 0`: the loop checks the cap only
after the count has been incremented, so a cap below 1 still lets the
first action through. -/
theorem per_cycle_cap_counterexample :
    cfg_cap0.max_actions_per_cycle.getD 2 = 0 ∧
    List.countP (eligible cfg_cap0) [d_mob10] = 1 ∧
    (run_cycle cfg_cap0 no_failure 7 0 init_state [d_mob10]).actions = 1 := by
  decide

/-- C2 (amended): when no injection fails and the configured per-cycle
cap (`automation.max_actions_per_cycle`, default 2) is at least 1, a
cycle with more eligible detections than the cap dispatches exactly `cap`
actions, and the detections left unprocessed by the loop's break contain
exactly the eligible detections beyond the first `cap` (they are skipped
for this cycle only). -/
theorem per_cycle_cap (cfg : Config) (fails : Effect → Bool) (now : ℚ)
    (rand : Nat) (st : BotState) (raw : List Detection)
    (hf : ∀ e, fails e = false)
    (h1 : 1 ≤ cfg.max_actions_per_cycle.getD 2)
    (h2 : cfg.max_actions_per_cycle.getD 2 < List.countP (eligible cfg) raw) :
    (run_cycle cfg fails now rand st raw).actions =
      cfg.max_actions_per_cycle.getD 2 ∧
    ∀ s0 : BotState,
      List.countP (eligible cfg)
        (action_loop cfg fails now (cfg.max_actions_per_cycle.getD 2)
          (prioritize_detections cfg raw) s0 0).remaining =
        List.countP (eligible cfg) raw - cfg.max_actions_per_cycle.getD 2 := by
  have hperm : List.Perm (prioritize_detections cfg raw) raw :=
    stable_sort_perm (detLE cfg) raw
  have hcount := hperm.countP_eq (eligible cfg)
  constructor
  · obtain ⟨s1, hs1⟩ := run_cycle_actions_loop cfg fails now rand st raw hf
    rw [hs1]
    exact (action_loop_cap_exact cfg fails now
      (cfg.max_actions_per_cycle.getD 2) hf
      (prioritize_detections cfg raw) s1 0 (by omega)
      (by rw [Nat.zero_add, hcount]; omega)).1
  · intro s0
    have hr := (action_loop_cap_exact cfg fails now
      (cfg.max_actions_per_cycle.getD 2) hf
      (prioritize_detections cfg raw) s0 0 (by omega)
      (by rw [Nat.zero_add, hcount]; omega)).2
    rw [hr, Nat.zero_add, hcount]

/-- Witness for C2: default configuration (cap 2), three eligible
detections — exactly 2 actions dispatched, one eligible detection left. -/
theorem per_cycle_cap_witness :
    (∀ e : Effect, no_failure e = false) ∧
    1 ≤ default_config.max_actions_per_cycle.getD 2 ∧
    default_config.max_actions_per_cycle.getD 2 <
      List.countP (eligible default_config) [d_mob10, d_item20, d_npc30] ∧
    ((run_cycle default_config no_failure 7 0 init_state
        [d_mob10, d_item20, d_npc30]).actions =
      default_config.max_actions_per_cycle.getD 2 ∧
    ∀ s0 : BotState,
      List.countP (eligible default_config)
        (action_loop default_config no_failure 7
          (default_config.max_actions_per_cycle.getD 2)
          (prioritize_detections default_config [d_mob10, d_item20, d_npc30])
          s0 0).remaining =
        List.countP (eligible default_config) [d_mob10, d_item20, d_npc30] -
          default_config.max_actions_per_cycle.getD 2) :=
  ⟨fun _ => rfl, by decide, by decide,
    per_cycle_cap default_config no_failure 7 0 init_state
      [d_mob10, d_item20, d_npc30] (fun _ => rfl) (by decide) (by decide)⟩

/-! ### The Prioritizer claims -/

theorem detLE_trans (cfg : Config) :
    ∀ a b c, detLE cfg a b = true → detLE cfg b c = true →
      detLE cfg a c = true := by
  intro a b c h1 h2
  simp only [detLE, keyLE, Bool.or_eq_true, Bool.and_eq_true,
    decide_eq_true_eq] at h1 h2 ⊢
  rcases h1 with h1 | ⟨h1e, h1d⟩ <;> rcases h2 with h2 | ⟨h2e, h2d⟩
  · left; omega
  · left; omega
  · left; omega
  · right; exact ⟨by omega, le_trans h1d h2d⟩

theorem detLE_total (cfg : Config) :
    ∀ a b, (detLE cfg a b || detLE cfg b a) = true := by
  intro a b
  simp only [detLE, keyLE, Bool.or_eq_true, Bool.and_eq_true,
    decide_eq_true_eq]
  rcases lt_trichotomy (sort_key cfg a).1 (sort_key cfg b).1 with h | h | h
  · exact Or.inl (Or.inl h)
  · rcases le_total (sort_key cfg a).2 (sort_key cfg b).2 with hd | hd
    · exact Or.inl (Or.inr ⟨h, hd⟩)
    · exact Or.inr (Or.inr ⟨h.symm, hd⟩)
  · exact Or.inr (Or.inl h)

/-- C3: the Prioritizer sorts by the key (priority rank, then
distance-from-center), and is stable: every two records with the same
key (equal rank and equal distance) appear in the output in their input
order — the subsequence of records with any fixed key is unchanged. -/
theorem prioritizer_sorted_stable (cfg : Config) (l : List Detection) :
    (prioritize_detections cfg l).Pairwise (fun a b => detLE cfg a b = true) ∧
    ∀ k : Nat × ℚ,
      (prioritize_detections cfg l).filter (fun d => decide (sort_key cfg d = k)) =
        l.filter (fun d => decide (sort_key cfg d = k)) := by
  constructor
  · exact stable_sort_sorted (detLE cfg) (detLE_trans cfg) (detLE_total cfg) l
  · intro k
    refine stable_sort_filter (detLE cfg) _ ?_ l
    intro x y hx hy
    simp only [decide_eq_true_eq] at hx hy
    simp [detLE, keyLE, hx, hy]

/-- C10: the Prioritizer's output is a permutation of its input (nothing
dropped, duplicated, invented or modified), the empty input yields the
empty output, and sorting is idempotent. -/
theorem prioritizer_permutation (cfg : Config) (l : List Detection) :
    List.Perm (prioritize_detections cfg l) l ∧
    prioritize_detections cfg ([] : List Detection) = [] ∧
    prioritize_detections cfg (prioritize_detections cfg l) =
      prioritize_detections cfg l := by
  refine ⟨stable_sort_perm _ l, rfl, ?_⟩
  exact stable_sort_of_sorted _ _
    (stable_sort_sorted _ (detLE_trans cfg) (detLE_total cfg) l)

theorem enumFrom_mem_spec :
    ∀ (n : Nat) (l : List α) (p : Nat × α), p ∈ List.enumFrom n l →
      p.1 < n + l.length ∧ p.2 ∈ l := by
  intro n l
  induction l generalizing n with
  | nil => intro p hp; simp [List.enumFrom] at hp
  | cons x xs ih =>
    intro p hp
    rw [List.enumFrom, List.mem_cons] at hp
    rcases hp with rfl | hp
    · exact ⟨by show n < n + (xs.length + 1); omega, List.mem_cons_self x xs⟩
    · obtain ⟨h1, h2⟩ := ih (n + 1) p hp
      refine ⟨?_, List.mem_cons_of_mem x h2⟩
      show p.1 < n + (xs.length + 1)
      omega

theorem enumFrom_mem_of_mem (name : α) :
    ∀ (n : Nat) (l : List α), name ∈ l →
      ∃ i, (i, name) ∈ List.enumFrom n l := by
  intro n l
  induction l generalizing n with
  | nil => intro h; simp at h
  | cons x xs ih =>
    intro h
    rw [List.mem_cons] at h
    rcases h with rfl | h
    · exact ⟨n, by rw [List.enumFrom]; exact List.mem_cons_self _ _⟩
    · obtain ⟨i, hi⟩ := ih (n + 1) h
      exact ⟨i, by rw [List.enumFrom]; exact List.mem_cons_of_mem _ hi⟩

theorem lookup_eq_none_of_keys (name : String) :
    ∀ l : List (String × Nat), (∀ p ∈ l, p.1 ≠ name) →
      l.lookup name = none := by
  intro l
  induction l with
  | nil => intro _; rfl
  | cons q l ih =>
    intro h
    have hne : q.1 ≠ name := h q (List.mem_cons_self q l)
    have hq : (name == q.1) = false :=
      beq_eq_false_iff_ne.mpr fun hc => hne hc.symm
    rw [List.lookup, hq]
    exact ih fun p hp => h p (List.mem_cons_of_mem q hp)

theorem lookup_some_of_key (name : String) :
    ∀ l : List (String × Nat), (∃ p ∈ l, p.1 = name) →
      ∃ v, l.lookup name = some v := by
  intro l
  induction l with
  | nil => intro h; simp at h
  | cons q l ih =>
    intro h
    by_cases hq : (name == q.1) = true
    · exact ⟨q.2, by rw [List.lookup, hq]⟩
    · have hqf : (name == q.1) = false := by simpa using hq
      rw [List.lookup, hqf]
      apply ih
      obtain ⟨p, hp, hpn⟩ := h
      rcases List.mem_cons.mp hp with rfl | hp
      · exact absurd (by simp [hpn]) hq
      · exact ⟨p, hp, hpn⟩

theorem lookup_mem_of_some (name : String) (v : Nat) :
    ∀ l : List (String × Nat), l.lookup name = some v → (name, v) ∈ l := by
  intro l
  induction l with
  | nil => intro h; simp [List.lookup] at h
  | cons q l ih =>
    intro h
    rw [List.lookup] at h
    by_cases hq : (name == q.1) = true
    · rw [hq] at h
      have hv : q.2 = v := Option.some.inj h
      have h1 : name = q.1 := by simpa using hq
      exact List.mem_cons.mpr (Or.inl (by rw [h1, ← hv]))
    · have hqf : (name == q.1) = false := by simpa using hq
      rw [hqf] at h
      exact List.mem_cons_of_mem q (ih h)

theorem rank_absent (targets : List String) (name : String)
    (h : name ∉ targets) : priority_rank targets name = 999 := by
  unfold priority_rank
  rw [lookup_eq_none_of_keys name _ ?_]
  · rfl
  · intro p hp
    rw [List.mem_reverse, List.mem_map] at hp
    obtain ⟨q, hq, rfl⟩ := hp
    have := (enumFrom_mem_spec 0 targets q hq).2
    intro hc
    dsimp only at hc
    rw [hc] at this
    exact h this

theorem rank_present_lt (targets : List String) (name : String)
    (hlen : targets.length ≤ 999) (h : name ∈ targets) :
    priority_rank targets name < 999 := by
  unfold priority_rank
  obtain ⟨i, hi⟩ := enumFrom_mem_of_mem name 0 targets h
  have hkey : ∃ p ∈ (targets.enum.map (fun p => (p.2, p.1))).reverse,
      p.1 = name := by
    refine ⟨(name, i), ?_, rfl⟩
    rw [List.mem_reverse, List.mem_map]
    exact ⟨(i, name), hi, rfl⟩
  obtain ⟨v, hv⟩ := lookup_some_of_key name _ hkey
  rw [hv]
  have hmem := lookup_mem_of_some name v _ hv
  rw [List.mem_reverse, List.mem_map] at hmem
  obtain ⟨q, hq, hqe⟩ := hmem
  have hb := (enumFrom_mem_spec 0 targets q hq).1
  have hv2 : v = q.1 := by
    have hx := congrArg Prod.snd hqe
    simpa using hx.symm
  simp only [Option.getD_some]
  omega

/-- C9 (amended): provided the priority list has at most 999 entries —
so that no present class's index reaches the absent-class sentinel rank
999 — a detection whose class is absent from the priority mapping sorts
after every detection whose class is present: in the Prioritizer's
output, everything after an absent-class record is also of an absent
class. -/
theorem absent_class_ranks_lowest (cfg : Config)
    (hlen : cfg.priority_targets.length ≤ 999)
    (l : List Detection) (i j : Fin (prioritize_detections cfg l).length)
    (hij : (i : Nat) < (j : Nat))
    (habs : ((prioritize_detections cfg l).get i).class_name ∉ cfg.priority_targets) :
    ((prioritize_detections cfg l).get j).class_name ∉ cfg.priority_targets := by
  intro hpres
  have hpair : (prioritize_detections cfg l).Pairwise
      (fun a b => detLE cfg a b = true) :=
    stable_sort_sorted (detLE cfg) (detLE_trans cfg) (detLE_total cfg) l
  have hrel := List.pairwise_iff_get.mp hpair i j hij
  have hranki : priority_rank cfg.priority_targets
      ((prioritize_detections cfg l).get i).class_name = 999 :=
    rank_absent _ _ habs
  have hrankj : priority_rank cfg.priority_targets
      ((prioritize_detections cfg l).get j).class_name < 999 :=
    rank_present_lt _ _ hlen hpres
  simp only [detLE, keyLE, sort_key, Bool.or_eq_true, Bool.and_eq_true,
    decide_eq_true_eq, hranki] at hrel
  rcases hrel with hrel | ⟨hrel, -⟩ <;> omega

/-- Witness for C9: with the default 3-entry priority list, after the
absent-class record `d_abs` (class `z`) every record is of an absent
class (here `d_abs2`, class `w`). -/
theorem absent_class_ranks_lowest_witness :
    default_config.priority_targets.length ≤ 999 ∧
    ((prioritize_detections default_config [d_abs2, d_abs]).get
      ⟨0, by decide⟩).class_name ∉ default_config.priority_targets ∧
    ((prioritize_detections default_config [d_abs2, d_abs]).get
      ⟨1, by decide⟩).class_name ∉ default_config.priority_targets :=
  ⟨by decide, by decide,
    absent_class_ranks_lowest default_config (by decide) [d_abs2, d_abs]
      ⟨0, by decide⟩ ⟨1, by decide⟩ (by decide) (by decide)⟩

set_option maxRecDepth 100000 in
/-- C9 counterexample: with a priority list of 1000 entries the present
class `y` receives rank 999 — the same rank as any absent class — so a
closer absent-class detection (`z`, distance 1) sorts *before* the
present-class detection (`y`, distance 2): an absent class does not rank
strictly lowest for every priority-target list. -/
theorem absent_class_ranks_lowest_counterexample :
    "y" ∈ targets1000 ∧ "z" ∉ targets1000 ∧
    prioritize_detections cfg_rank999 [d_pres, d_abs] = [d_abs, d_pres] := by
  refine ⟨?_, ?_, ?_⟩
  · decide
  · decide
  · rfl

/-! ### Statistics (C6), meaningfulness of `ignore` (C5), return steps (C8) -/

theorem epilogue_spec (cfg : Config) (fails : Effect → Bool) (now : ℚ)
    (b : Bool) (st2 : BotState) (effs0 effs : List Effect) (st' : BotState)
    (h : (if b = true then
            match end_mob_search cfg fails now st2 with
            | .error (st3, effs2) => ((false : Bool), st3, effs0 ++ effs2)
            | .ok (st3, effs2) => ((true : Bool), st3, effs0 ++ effs2)
          else ((true : Bool), st2, effs0)) = (true, st', effs)) :
    st'.actions_performed = st2.actions_performed ∧
    st'.mobs_attacked = st2.mobs_attacked ∧
    st'.items_collected = st2.items_collected ∧
    st'.npcs_interacted = st2.npcs_interacted ∧
    st'.last_mob_detection_time = st2.last_mob_detection_time := by
  split at h
  · cases he : end_mob_search cfg fails now st2 with
    | error p => obtain ⟨st3, effs2⟩ := p; rw [he] at h; simp at h
    | ok p =>
      obtain ⟨st3, effs2⟩ := p
      rw [he] at h
      simp only [Prod.mk.injEq] at h
      obtain ⟨-, h2, -⟩ := h
      have hp := end_mob_search_preserves cfg fails now st2 st3 effs2 (Or.inl he)
      rw [← h2]
      exact ⟨hp.1, hp.2.1, hp.2.2.1, hp.2.2.2.1, hp.2.2.2.2.1⟩
  · simp only [Prod.mk.injEq] at h
    obtain ⟨-, h2, -⟩ := h
    rw [← h2]
    exact ⟨rfl, rfl, rfl, rfl, rfl⟩

/-- C6 (amended): whenever `perform_action` performs an action (returns
`true`), it has incremented the total actions-performed counter by one
and set the last-target-seen timestamp to the current time; the per-class
statistic is incremented exactly when the record's class is the one the
code pairs with the action kind — `mob` for `attack`, `item` for
`pickup`, `npc` for `interact` — and for any other class name no
per-class counter changes. -/
theorem perform_action_stats (cfg : Config) (fails : Effect → Bool)
    (now : ℚ) (st : BotState) (d : Detection) (st' : BotState)
    (effs : List Effect)
    (h : perform_action cfg fails now st d = (true, st', effs)) :
    st'.actions_performed = st.actions_performed + 1 ∧
    st'.last_mob_detection_time = now ∧
    st'.mobs_attacked = st.mobs_attacked +
      (if action_type cfg d.class_name = "attack" ∧ d.class_name = "mob"
       then 1 else 0) ∧
    st'.items_collected = st.items_collected +
      (if action_type cfg d.class_name = "pickup" ∧ d.class_name = "item"
       then 1 else 0) ∧
    st'.npcs_interacted = st.npcs_interacted +
      (if action_type cfg d.class_name = "interact" ∧ d.class_name = "npc"
       then 1 else 0) := by
  unfold perform_action at h
  split at h
  · simp at h
  · cases hd : dispatch_action cfg fails st d with
    | error effs0 => rw [hd] at h; simp at h
    | ok r =>
      obtain ⟨b, st1, effs0⟩ := r
      rw [hd] at h
      cases b with
      | false => simp at h
      | true =>
        have hcs := dispatch_action_class_stats cfg fails st d st1 effs0 hd
        have hpres := dispatch_action_preserves cfg fails st d true st1 effs0 hd
        dsimp only at h
        have hep := epilogue_spec cfg fails now _ _ _ _ _ h
        refine ⟨?_, ?_, ?_, ?_, ?_⟩
        · rw [hep.1]
          show st1.actions_performed + 1 = st.actions_performed + 1
          rw [hpres.2.1]
        · rw [hep.2.2.2.2]
        · rw [hep.2.1]
          show st1.mobs_attacked = _
          exact hcs.1
        · rw [hep.2.2.1]
          show st1.items_collected = _
          exact hcs.2.1
        · rw [hep.2.2.2.1]
          show st1.npcs_interacted = _
          exact hcs.2.2

/-- Witness for C6: a successful attack on an in-range mob increments
`actions_performed` and `mobs_attacked` and stamps the timestamp. -/
theorem perform_action_stats_witness :
    perform_action default_config no_failure 7 init_state d_mob10 =
      (true, mob_hit_state, mob_hit_effects) ∧
    (mob_hit_state.actions_performed = init_state.actions_performed + 1 ∧
     mob_hit_state.last_mob_detection_time = 7 ∧
     mob_hit_state.mobs_attacked = init_state.mobs_attacked +
       (if action_type default_config d_mob10.class_name = "attack" ∧
           d_mob10.class_name = "mob" then 1 else 0) ∧
     mob_hit_state.items_collected = init_state.items_collected +
       (if action_type default_config d_mob10.class_name = "pickup" ∧
           d_mob10.class_name = "item" then 1 else 0) ∧
     mob_hit_state.npcs_interacted = init_state.npcs_interacted +
       (if action_type default_config d_mob10.class_name = "interact" ∧
           d_mob10.class_name = "npc" then 1 else 0)) :=
  ⟨rfl, perform_action_stats default_config no_failure 7 init_state d_mob10
    mob_hit_state mob_hit_effects rfl⟩

/-- C6 counterexample: an attack is performed on a record of class
`boss`, yet no per-class statistic changes — the code only counts
`mobs_attacked` for class `mob`, `items_collected` for `item`,
`npcs_interacted` for `npc`, so "increments that class's per-class
statistic, whatever the record's class name" fails. -/
theorem perform_action_per_class_stat_counterexample :
    action_type cfg_boss d_boss.class_name = "attack" ∧
    (perform_action cfg_boss no_failure 7 init_state d_boss).1 = true ∧
    ((perform_action cfg_boss no_failure 7 init_state d_boss).2.1).actions_performed = 1 ∧
    ((perform_action cfg_boss no_failure 7 init_state d_boss).2.1).mobs_attacked = 0 ∧
    ((perform_action cfg_boss no_failure 7 init_state d_boss).2.1).items_collected = 0 ∧
    ((perform_action cfg_boss no_failure 7 init_state d_boss).2.1).npcs_interacted = 0 := by
  decide

/-- C5 (code bug): the cycle's meaningfulness check uses only
`action != 'log_only'`, so the action kind `ignore` (offered by the
configuration UI alongside `log_only`) counts as meaningful even though
`perform_action` dispatches nothing for it: with class `mob` mapped to
`ignore`, the meaningful flag is `true`, the cycle dispatches no action,
and the search timer is reset to the cycle's time anyway (so the cycle
also suppresses starting a search). -/
theorem ignore_counts_as_meaningful :
    meaningful_detection cfg_ignore [d_mob10] = true ∧
    perform_action cfg_ignore no_failure 7 init_state d_mob10 =
      (false, init_state, []) ∧
    (run_cycle cfg_ignore no_failure 7 0 init_state [d_mob10]).actions = 0 ∧
    (run_cycle cfg_ignore no_failure 7 0 init_state
      [d_mob10]).st.last_mob_detection_time = 7 :=
  ⟨by decide, rfl, by decide, by decide⟩

theorem rtc_loop_count_key_down (fails : Effect → Bool) (key : String)
    (hf : ∀ e, fails e = false) :
    ∀ n, count_key_down (rtc_loop fails key n).2 = n := by
  intro n
  induction n with
  | zero => rfl
  | succ n ih =>
    simp only [rtc_loop, hf, Bool.false_eq_true, if_false]
    simp [count_key_down, List.countP_cons, is_key_down] at ih ⊢
    omega

/-- C8 (amended): when a search ends with return-to-start enabled and no
injection fails, the corrective reverse movement makes exactly
`search_moves / 2 + 1` key-hold steps — half the moves of the last
search segment rounded *down*, plus one (not rounded up). -/
theorem return_to_center_no_failure_fst (cfg : Config)
    (fails : Effect → Bool) (st : BotState) (hf : ∀ e, fails e = false) :
    (return_to_center_simplified cfg fails st).1 = true :=
  rtc_loop_no_failure_fst fails _ hf _

theorem return_to_center_count (cfg : Config) (fails : Effect → Bool)
    (st : BotState) (hf : ∀ e, fails e = false) :
    count_key_down (return_to_center_simplified cfg fails st).2 =
      st.search_moves / 2 + 1 :=
  rtc_loop_count_key_down fails _ hf _

theorem return_steps (cfg : Config) (fails : Effect → Bool) (now : ℚ)
    (st : BotState) (hs : st.is_searching = true)
    (hr : cfg.return_to_center.getD true = true)
    (hf : ∀ e, fails e = false) :
    ∃ st' effs, end_mob_search cfg fails now st = .ok (st', effs) ∧
      count_key_down effs = st.search_moves / 2 + 1 := by
  unfold end_mob_search
  rw [if_neg (by simp [hs])]
  rw [if_pos hr]
  rw [if_pos (return_to_center_no_failure_fst cfg fails _ hf)]
  exact ⟨_, _, rfl, return_to_center_count cfg fails _ hf⟩

/-- Witness for C8: ending a search whose segment made 5 moves issues
`5 / 2 + 1 = 3` reverse steps. -/
theorem return_steps_witness :
    st_search5.is_searching = true ∧
    default_config.return_to_center.getD true = true ∧
    (∃ st' effs, end_mob_search default_config no_failure 30 st_search5 =
        .ok (st', effs) ∧
      count_key_down effs = st_search5.search_moves / 2 + 1) :=
  ⟨rfl, rfl, return_steps default_config no_failure 30 st_search5 rfl rfl
    (fun _ => rfl)⟩

/-- C8 counterexample: a search segment of 2 moves is reversed with 2
key-hold steps (`2 / 2 + 1`), while "half the moves rounded up" would be
`ceil(2 / 2) = 1`. -/
theorem return_steps_counterexample :
    st_search2.search_moves = 2 ∧
    (match end_mob_search default_config no_failure 30 st_search2 with
     | .ok p => count_key_down p.2
     | .error p => count_key_down p.2) = 2 ∧
    (st_search2.search_moves + 1) / 2 = 1 := by
  decide

end MapleBot
